import Mathlib

/-
Verification development for the onchange file watcher.

The program watches filesystem paths, debounces change notifications,
derives a map of template variables for each changed file (optionally
enriched by an auxiliary shell command), renders a message and a shell
command from templates, filters by ignore globs, and dispatches the
command synchronously or on a detached thread.

This file shallowly embeds the functions of src/main.rs.  External
effects (spawning the auxiliary variables command, joining a shell
command) are passed in as a World parameter; a Rust panic is modelled
as the value none of an Option result, or as a false completion flag
of a step that had already printed something.  Paths are modelled as
Unix path strings and the standard library path operations used by the
program (file_stem, extension, file_name, parent, pathdiff::diff_paths)
are embedded on that representation.
-/

namespace OnChange

/-- Left brace character, written by code so that no brace appears in a
string literal of this file. -/
def lbrace : Char := Char.ofNat 123

/-- Right brace character. -/
def rbrace : Char := Char.ofNat 125

/-- Wraps a key in braces, producing a template placeholder string. -/
def braced (k : String) : String := String.mk (lbrace :: k.toList ++ [rbrace])

/-! ### Association maps

Rust HashMap is modelled as an association list where insertion
prepends and lookup returns the most recent binding, which gives the
same observable get and insert behaviour as a hash map. -/

/-- Lookup of a key, returning the most recently inserted binding. -/
def lookupKey {α : Type} : List (String × α) → String → Option α
  | [], _ => none
  | (k, v) :: rest, key => if k = key then some v else lookupKey rest key

/-- Insertion; models HashMap insert, which overwrites an existing key. -/
def insertKey {α : Type} (m : List (String × α)) (key : String) (v : α) :
    List (String × α) :=
  (key, v) :: m

/-- Key membership. -/
def containsKey {α : Type} (m : List (String × α)) (key : String) : Bool :=
  (lookupKey m key).isSome

/-- Rust HashMap indexing, map[key]; it panics in Rust when the key is
absent, and is used by the program only where the key was just
inserted, so it is modelled with a default. -/
def getKeyD (m : List (String × String)) (key : String) : String :=
  (lookupKey m key).getD ""

/-! ### String helpers

Small character list implementations of the string operations the
program uses, kept elementary so that the kernel evaluates them. -/

/-- ASCII whitespace test; models the whitespace trimmed by Rust trim
restricted to the ASCII range. -/
def isWs (c : Char) : Bool := c = ' ' || c = '\t' || c = '\n' || c = '\r'

/-- Trims whitespace from both ends of a character list. -/
def trimChars (l : List Char) : List Char :=
  ((l.dropWhile isWs).reverse.dropWhile isWs).reverse

/-- Models Rust str::trim. -/
def strTrim (s : String) : String := String.mk (trimChars s.toList)

/-- Splits a character list at the first occurrence of sep, returning
the parts before and after it; models Rust str::split_once. -/
def splitOnceChars : List Char → Char → Option (List Char × List Char)
  | [], _ => none
  | c :: cs, sep =>
    if c = sep then some ([], cs)
    else (splitOnceChars cs sep).map (fun p => (c :: p.1, p.2))

/-- Models Rust str::split_once on strings. -/
def splitOnceStr (s : String) (sep : Char) : Option (String × String) :=
  (splitOnceChars s.toList sep).map (fun p => (String.mk p.1, String.mk p.2))

/-- Splits a character list on every occurrence of sep, keeping empty
pieces; models Rust str::split with a single character pattern. -/
def splitChars (sep : Char) : List Char → List (List Char)
  | [] => [[]]
  | c :: cs =>
    match splitChars sep cs with
    | [] => [[]]
    | t :: ts => if c = sep then [] :: t :: ts else (c :: t) :: ts

/-- String version of splitChars. -/
def splitStr (s : String) (sep : Char) : List String :=
  (splitChars sep s.toList).map String.mk

/-- Joins strings with a separator; models the joining the program
performs with join and with path collection. -/
def joinStrings (sep : String) : List String → String
  | [] => ""
  | [s] => s
  | s :: rest => s ++ sep ++ joinStrings sep rest

/-! ### Path model

Paths are Unix path strings.  The component parsing mirrors the
normalisation of Rust Path::components: repeated separators and
non-leading dot components are dropped. -/

/-- Path component, as in Rust std::path::Component restricted to the
variants a Unix path can produce here. -/
inductive Comp : Type where
  | rootDir : Comp
  | curDir : Comp
  | parentDir : Comp
  | normal : String → Comp
  deriving DecidableEq, Repr

/-- Parses one path token into a component; empty and dot tokens are
dropped, mirroring the normalisation of Rust path components. -/
def tokenToComp (s : String) : Option Comp :=
  if s = "" then none
  else if s = "." then none
  else if s = ".." then some Comp.parentDir
  else some (Comp.normal s)

/-- Whether a path string is absolute. -/
def isAbsolute (p : String) : Bool :=
  match p.toList with
  | '/' :: _ => true
  | _ => false

/-- Components of a path string, mirroring Rust Path::components: a
leading separator yields RootDir, a leading dot of a relative path is
kept as CurDir, other dot components and empty components are dropped. -/
def pathComponents (p : String) : List Comp :=
  match p.toList with
  | '/' :: rest => Comp.rootDir :: (splitChars '/' rest).filterMap (fun t => tokenToComp (String.mk t))
  | chars =>
    match (splitChars '/' chars).map String.mk with
    | "." :: rest => Comp.curDir :: rest.filterMap tokenToComp
    | toks => toks.filterMap tokenToComp

/-- Renders one component back to a string. -/
def compStr : Comp → String
  | Comp.rootDir => "/"
  | Comp.curDir => "."
  | Comp.parentDir => ".."
  | Comp.normal s => s

/-- Collects components into a path string, as PathBuf collect does. -/
def joinComps : List Comp → String
  | [] => ""
  | Comp.rootDir :: rest => "/" ++ joinStrings "/" (rest.map compStr)
  | comps => joinStrings "/" (comps.map compStr)

/-- Models Rust Path::file_name through components: the last component
when it is a normal one. -/
def fileNameOpt (p : String) : Option String :=
  match (pathComponents p).getLast? with
  | some (Comp.normal s) => some s
  | _ => none

/-- The file name with the empty default, as the program obtains with
file_name unwrap_or_default to_string_lossy. -/
def fileName (p : String) : String := (fileNameOpt p).getD ""

/-- Splits a name at its last dot, returning the parts before and
after; none when the name has no dot.  The recursion prefers the
rightmost dot. -/
def lastDotSplit : List Char → Option (List Char × List Char)
  | [] => none
  | c :: cs =>
    match lastDotSplit cs with
    | some (b, a) => some (c :: b, a)
    | none => if c = '.' then some ([], cs) else none

/-- Models Rust Path::file_stem with the empty default: the portion of
the file name before its last dot, the whole name when there is no dot
or the only dot is leading. -/
def fileStem (p : String) : String :=
  match fileNameOpt p with
  | none => ""
  | some n =>
    match lastDotSplit n.toList with
    | none => n
    | some ([], _) => n
    | some (b, _) => String.mk b

/-- Models Rust Path::extension with the empty default: the portion of
the file name after its last dot, empty when there is no dot or the
only dot is leading. -/
def extension (p : String) : String :=
  match fileNameOpt p with
  | none => ""
  | some n =>
    match lastDotSplit n.toList with
    | none => ""
    | some ([], _) => ""
    | some (_, a) => String.mk a

/-- Models Rust Path::parent: the path without its final component,
none for the root and the empty path. -/
def parentOpt (p : String) : Option String :=
  match pathComponents p with
  | [] => none
  | [Comp.rootDir] => none
  | comps => some (joinComps comps.dropLast)

/-- The parent with the root default, as the program writes
parent unwrap_or Path new. -/
def parentOrRoot (p : String) : String := (parentOpt p).getD "/"

/-- Loop of the pathdiff crate walking the components of the path and
of the base, accumulating the components of the relative path. -/
def diffLoop : List Comp → List Comp → List Comp → Option (List Comp)
  | ita, [], comps =>
    match ita with
    | [] => some comps
    | a :: ita => some (comps ++ a :: ita)
  | [], _ :: itb, comps => diffLoop [] itb (comps ++ [Comp.parentDir])
  | a :: ita, b :: itb, comps =>
    if comps.isEmpty && a = b then diffLoop ita itb comps
    else if b = Comp.curDir then diffLoop ita itb (comps ++ [a])
    else if b = Comp.parentDir then none
    else some (comps ++ Comp.parentDir :: (itb.map fun _ => Comp.parentDir) ++ a :: ita)

/-- Models pathdiff::diff_paths, the lexical relative path from base to
path used for the rpath and rdir variables. -/
def diff_paths (path base : String) : Option String :=
  if isAbsolute path ≠ isAbsolute base then
    if isAbsolute path then some path else none
  else
    (diffLoop (pathComponents path) (pathComponents base) []).map joinComps

/-- The platform path separator as a string; the model fixes the Unix
separator used by std::path::MAIN_SEPARATOR on Unix. -/
def sepString : String := "/"

/-- Appends a relative path to a base, as PathBuf::join does for the
relative case used in the trial run. -/
def joinPath (base p : String) : String :=
  match base.toList.getLast? with
  | some '/' => base ++ p
  | _ => base ++ sepString ++ p

/-- The absolutisation the trial run performs on each watch entry. -/
def absolutize (cwd p : String) : String :=
  if isAbsolute p then p else joinPath cwd p

/-! ### Glob matching

Models the matcher of the glob crate used for the ignore patterns,
restricted to literal characters, the single character wildcard and
the star wildcard; with the default match options of the crate, which
the program uses, a star may match separator characters too. -/

/-- All suffixes of a character list, longest first. -/
def suffixes : List Char → List (List Char)
  | [] => [[]]
  | c :: cs => (c :: cs) :: suffixes cs

/-- Glob matching on character lists: a star matches any sequence of
characters, so the rest of the pattern must match some suffix; a
question mark matches one character, anything else matches literally. -/
def globMatchChars : List Char → List Char → Bool
  | [], s => s.isEmpty
  | '*' :: ps, s => (suffixes s).any (fun t => globMatchChars ps t)
  | '?' :: ps, s =>
    match s with
    | [] => false
    | _ :: cs => globMatchChars ps cs
  | p :: ps, s =>
    match s with
    | [] => false
    | c :: cs => p = c && globMatchChars ps cs

/-- Models glob::Pattern::matches_path on the path string. -/
def globMatches (pat path : String) : Bool :=
  globMatchChars pat.toList path.toList

/-! ### Template rendering

Models the external new_string_template renderer: a template is its
raw text, and rendering replaces each brace delimited placeholder by
the value of that key in the variable map.  render_nofail_string
leaves a placeholder with an unknown key in place as literal text,
while render_string fails on an unknown key. -/

/-- A template is its raw text, as built by Template::new. -/
abbrev Template := String

/-- A variable map, one per logical change event. -/
abbrev VarMap := List (String × String)

/-- Rendering state machine for render_nofail_string: the second
argument collects the characters of a placeholder key in reverse while
inside braces. -/
def renderNofailChars (m : VarMap) : List Char → Option (List Char) → List Char
  | [], none => []
  | [], some acc => lbrace :: acc.reverse
  | c :: cs, none =>
    if c = lbrace then renderNofailChars m cs (some [])
    else c :: renderNofailChars m cs none
  | c :: cs, some acc =>
    if c = rbrace then
      (match lookupKey m (String.mk acc.reverse) with
       | some v => v.toList
       | none => lbrace :: acc.reverse ++ [rbrace]) ++ renderNofailChars m cs none
    else renderNofailChars m cs (some (c :: acc))

/-- Models Template::render_nofail_string. -/
def renderNofailString (t : Template) (m : VarMap) : String :=
  String.mk (renderNofailChars m t.toList none)

/-- Rendering state machine for render_string, which fails when a
placeholder key is missing from the map. -/
def renderStringChars (m : VarMap) : List Char → Option (List Char) → Option (List Char)
  | [], none => some []
  | [], some acc => some (lbrace :: acc.reverse)
  | c :: cs, none =>
    if c = lbrace then renderStringChars m cs (some [])
    else (renderStringChars m cs none).map (c :: ·)
  | c :: cs, some acc =>
    if c = rbrace then
      match lookupKey m (String.mk acc.reverse) with
      | some v => (renderStringChars m cs none).map (v.toList ++ ·)
      | none => none
    else renderStringChars m cs (some (c :: acc))

/-- Models Template::render_string, whose failure the program unwraps. -/
def renderString (t : Template) (m : VarMap) : Option String :=
  (renderStringChars m t.toList none).map String.mk

/-! ### Program data model -/

/-- The extension rule table: for each extension token a pair of the
optional command template and the optional extra variables template. -/
abbrev ConfMap := List (String × (Option Template × Option Template))

/-- External effects the program consumes: streamStdout gives, for a
rendered variables command, none when the spawn fails and otherwise
the stdout lines, each line being none when it cannot be read as text;
join tells whether Exec::shell join returned without error for a
dispatched command. -/
structure World : Type where
  streamStdout : String → Option (List (Option String))
  join : String → Bool

/-- A world with no successful external commands, usable where the
external effects are never consulted. -/
def noWorld : World := ⟨fun _ => none, fun _ => false⟩

/-- The command line arguments the modelled functions read.  The two
duration flags only introduce sleeps, the config flag only selects the
file behind the config result, and neither is otherwise observable in
this model. -/
structure Cli : Type where
  recursive : Bool
  render_only : Bool
  async : Bool
  ignore : List String
  variables_command : Option String
  template : String
  trial_run : Bool
  watch : List String
  command : List String

/-- Observable actions of one run, in order: the two console messages
printed by on_change, a shell dispatch with its async flag, and the
error reports of the notification source. -/
inductive Effect : Type where
  | changedMsg : String → Effect
  | runMsg : String → Effect
  | spawnShell : String → Bool → Effect
  | errorMsg : String → Effect
  deriving DecidableEq, Repr

/-- Whether an effect is a shell dispatch. -/
def Effect.isSpawn : Effect → Bool
  | Effect.spawnShell _ _ => true
  | _ => false

/-- Kind of a debounced event, as in notify_debouncer_mini. -/
inductive DebouncedEventKind : Type where
  | any : DebouncedEventKind
  | anyContinuous : DebouncedEventKind
  deriving DecidableEq, Repr

/-- A debounced event delivered to the main loop. -/
structure DebouncedEvent : Type where
  path : String
  kind : DebouncedEventKind
  deriving DecidableEq, Repr

/-- Debug rendering of the kind, as derived in Rust. -/
def kindDebug : DebouncedEventKind → String
  | DebouncedEventKind.any => "Any"
  | DebouncedEventKind.anyContinuous => "AnyContinuous"

/-- Quotes a string as the Debug form of a PathBuf does. -/
def quoteStr (s : String) : String := String.mk ('\"' :: s.toList ++ ['\"'])

/-- The Debug formatting of a debounced event that the program inserts
under the event key. -/
def eventDebug (e : DebouncedEvent) : String :=
  "DebouncedEvent " ++ String.mk [lbrace] ++ " path: " ++ quoteStr e.path
    ++ ", kind: " ++ kindDebug e.kind ++ " " ++ String.mk [rbrace]

/-- One item received from the notification channel: a batch of events
or a list of errors. -/
abbrev RxItem := Except (List String) (List DebouncedEvent)

/-! ### template_vars -/

/-- The built in part of template_vars: the nine path derived keys, in
the insertion order of the source; none models the panic of an unwrap
of diff_paths. -/
def builtinVars (path pwd : String) : Option VarMap :=
  match diff_paths path pwd with
  | none => none
  | some rpath =>
    let m : VarMap := insertKey [] "name" (fileStem path)
    let m := insertKey m "ext" (extension path)
    let m := insertKey m "name.ext" (fileName path)
    let m := insertKey m "pwd" pwd
    let m := insertKey m "path" path
    let m := insertKey m "rpath" rpath
    let parent := parentOrRoot path
    let m := insertKey m "dir" parent
    match diff_paths parent pwd with
    | none => none
    | some rdir =>
      let m := insertKey m "rdir" rdir
      some (insertKey m "rname" (getKeyD m "rdir" ++ sepString ++ getKeyD m "name.ext"))

/-- Choice of the variables command: the one from the command line if
present, else the extra variables template of the rule for the ext
value, else none. -/
def chooseVarCmd (var_cmd : Option String) (conf_map : ConfMap) (m : VarMap) :
    Option Template :=
  match var_cmd with
  | some cmd => some cmd
  | none =>
    match lookupKey conf_map (getKeyD m "ext") with
    | some (_, some templ) => some templ
    | _ => none

/-- Insertion of one stdout line of the variables command: a line with
a colon is split at its first colon, both parts are trimmed and the
pair is inserted; a line without a colon is ignored. -/
def insertVarLine (m : VarMap) (s : String) : VarMap :=
  match splitOnceStr s ':' with
  | some (k, v) => insertKey m (strTrim k) (strTrim v)
  | none => m

/-- Folds the stdout lines into the map; a line that could not be read
as text is an unwrap panic, modelled as none. -/
def applyLines : List (Option String) → VarMap → Option VarMap
  | [], m => some m
  | none :: _, _ => none
  | some s :: rest, m => applyLines rest (insertVarLine m s)

/-- Models template_vars of the source: built in keys from path
arithmetic, then the chosen variables command is rendered, spawned and
its output folded into the map; none models any of the unwrap panics
inside the function. -/
def template_vars (world : World) (path pwd : String) (var_cmd : Option String)
    (conf_map : ConfMap) : Option VarMap :=
  match builtinVars path pwd with
  | none => none
  | some m =>
    match chooseVarCmd var_cmd conf_map m with
    | none => some m
    | some t =>
      match renderString t m with
      | none => none
      | some cmd =>
        match world.streamStdout cmd with
        | none => none
        | some ls => applyLines ls m

/-! ### Renderer, dispatch, startup and the loops -/

/-- Models render_command of the source: the command line override if
present, else the command template of the rule for the ext value, else
the empty string. -/
def render_command (cmd : Option Template) (conf_map : ConfMap) (map : VarMap) :
    String :=
  match cmd with
  | some templ => renderNofailString templ map
  | none =>
    match lookupKey conf_map (getKeyD map "ext") with
    | some (some templ, _) => renderNofailString templ map
    | _ => ""

/-- Models on_change of the source as the list of its observable
effects plus a completion flag: an ignored path returns nothing, then
the change message prints, an empty command stops, the run message
prints, render only stops before any dispatch, async dispatch detaches
so a join failure cannot stop the loop, and sync dispatch completes
only when the join of the shell succeeds.  The pre dispatch sleep has
no observable effect and is not modelled. -/
def on_change (world : World) (args : Cli) (path : String) (cmd : String)
    (cng : Option String) : List Effect × Bool :=
  if args.ignore.any (fun p => globMatches p path) then ([], true)
  else
    let msgs : List Effect :=
      match cng with
      | some templ => [Effect.changedMsg templ]
      | none => []
    if cmd = "" then (msgs, true)
    else
      let msgs := msgs ++ [Effect.runMsg cmd]
      if args.render_only then (msgs, true)
      else if args.async then (msgs ++ [Effect.spawnShell cmd true], true)
      else (msgs ++ [Effect.spawnShell cmd false], world.join cmd)

/-- Models ext_map_from_config: for each rule, each token of its space
separated extensions string maps to the pair of its optional command
and extra variables strings; none models the panic of indexing a rule
that lacks an extensions entry.  The verbose printing has no modelled
effect. -/
def ext_map_from_config : List (String × List (String × String)) → ConfMap →
    Option ConfMap
  | [], acc => some acc
  | (_, v) :: rest, acc =>
    match lookupKey v "extensions" with
    | none => none
    | some exts =>
      ext_map_from_config rest
        ((splitStr exts ' ').foldl
          (fun a ext => insertKey a ext (lookupKey v "command", lookupKey v "extra_variables"))
          acc)

/-- Models the startup computation of conf_map in main: when a command
and a variables command are both given the table is empty and the
configuration is never loaded; otherwise a configuration load or parse
failure, given as the error case of the input, stops main before the
event loop, modelled as none. -/
def startupConfMap (command : List String) (variables_command : Option String)
    (configResult : Except String (List (String × List (String × String)))) :
    Option ConfMap :=
  if 0 < command.length ∧ variables_command.isSome = true then some []
  else
    match configResult with
    | Except.error _ => none
    | Except.ok conf => ext_map_from_config conf []

/-- The change message template: the template flag when nonempty. -/
def cngTempl (args : Cli) : Option Template :=
  if 0 < args.template.length then some args.template else none

/-- The command override template: the trailing command words joined
by spaces, when any were given. -/
def cmdTempl (args : Cli) : Option Template :=
  if 0 < args.command.length then some (joinStrings " " args.command) else none

/-- The variable map built for one watch mode event: template_vars and
then the event debug key, inserted after the variables command ran. -/
def watchEventMap (world : World) (e : DebouncedEvent) (cwd : String)
    (var_cmd : Option String) (conf_map : ConfMap) : Option VarMap :=
  (template_vars world e.path cwd var_cmd conf_map).map
    (fun m => insertKey m "event" (eventDebug e))

/-- Processing of one debounced event in the watch loop; the pair
collects the effects and whether processing completed without a panic. -/
def processEvent (world : World) (args : Cli) (conf_map : ConfMap) (cwd : String)
    (e : DebouncedEvent) : List Effect × Bool :=
  match e.kind with
  | DebouncedEventKind.anyContinuous => ([], true)
  | DebouncedEventKind.any =>
    match watchEventMap world e cwd args.variables_command conf_map with
    | none => ([], false)
    | some map =>
      let cmd := render_command (cmdTempl args) conf_map map
      let cng := (cngTempl args).map (fun t => renderNofailString t map)
      on_change world args e.path cmd cng

/-- Processing of one batch of events; a panic stops the batch. -/
def processBatch (world : World) (args : Cli) (conf_map : ConfMap) (cwd : String) :
    List DebouncedEvent → List Effect × Bool
  | [] => ([], true)
  | e :: rest =>
    match processEvent world args conf_map cwd e with
    | (effs, true) =>
      match processBatch world args conf_map cwd rest with
      | (effs2, ok) => (effs ++ effs2, ok)
    | (effs, false) => (effs, false)

/-- The main event loop over the received items: error batches are
reported and the loop continues; a panic while processing an event
batch terminates the loop, dropping everything after it. -/
def mainLoop (world : World) (args : Cli) (conf_map : ConfMap) (cwd : String) :
    List RxItem → List Effect × Bool
  | [] => ([], true)
  | Except.error errs :: rest =>
    match mainLoop world args conf_map cwd rest with
    | (effs, ok) => (errs.map Effect.errorMsg ++ effs, ok)
  | Except.ok events :: rest =>
    match processBatch world args conf_map cwd events with
    | (effs, true) =>
      match mainLoop world args conf_map cwd rest with
      | (effs2, ok) => (effs ++ effs2, ok)
    | (effs, false) => (effs, false)

/-- The variable map built for one watch list entry in trial run mode:
template_vars of the absolutised path, with no event key. -/
def trialMap (world : World) (cwd : String) (var_cmd : Option String)
    (conf_map : ConfMap) (p : String) : Option VarMap :=
  template_vars world (absolutize cwd p) cwd var_cmd conf_map

/-- Processing of one watch list entry in trial run mode. -/
def trialStep (world : World) (args : Cli) (conf_map : ConfMap) (cwd : String)
    (p : String) : List Effect × Bool :=
  match trialMap world cwd args.variables_command conf_map p with
  | none => ([], false)
  | some map =>
    let cmd := render_command (cmdTempl args) conf_map map
    let cng := (cngTempl args).map (fun t => renderNofailString t map)
    on_change world args (absolutize cwd p) cmd cng

/-- Trial run mode: one synthesised event per watch entry. -/
def trialRun (world : World) (args : Cli) (conf_map : ConfMap) (cwd : String) :
    List String → List Effect × Bool
  | [] => ([], true)
  | p :: rest =>
    match trialStep world args conf_map cwd p with
    | (effs, true) =>
      match trialRun world args conf_map cwd rest with
      | (effs2, ok) => (effs ++ effs2, ok)
    | (effs, false) => (effs, false)

/-! ### Debouncer -/

/-- Debounce state: last accepted timestamp per path. -/
abbrev DebounceState := List (String × Nat)

/-- Modelled from the spec: the debounce policy itself lives in the
external notify_debouncer_mini crate and is not part of the repository
sources; the spec states that a notification is accepted when the path
has no recorded timestamp or the time since the last accepted
timestamp is at least the quiet window, recording the new timestamp,
and is silently dropped otherwise. -/
def accept (window : Nat) (st : DebounceState) (p : String) (now : Nat) :
    Bool × DebounceState :=
  match lookupKey st p with
  | none => (true, insertKey st p now)
  | some last =>
    if window ≤ now - last then (true, insertKey st p now) else (false, st)

/-- Modelled from the spec: runs the debouncer over a sequence of raw
notifications, returning the accepted ones, each of which becomes one
LogicalChangeEvent. -/
def debounceRun (window : Nat) : DebounceState → List (String × Nat) →
    List (String × Nat)
  | _, [] => []
  | st, (p, t) :: rest =>
    match accept window st p t with
    | (true, st2) => (p, t) :: debounceRun window st2 rest
    | (false, st2) => debounceRun window st2 rest

/-! ### Map lemmas -/

theorem lookup_insert_self {α : Type} (m : List (String × α)) (k : String) (v : α) :
    lookupKey (insertKey m k v) k = some v := by
  simp [insertKey, lookupKey]

theorem lookup_insert_ne {α : Type} (m : List (String × α)) (k k' : String) (v : α)
    (h : k ≠ k') : lookupKey (insertKey m k v) k' = lookupKey m k' := by
  simp [insertKey, lookupKey, h]

theorem contains_insert_self {α : Type} (m : List (String × α)) (k : String) (v : α) :
    containsKey (insertKey m k v) k = true := by
  simp [containsKey, lookup_insert_self]

theorem contains_insert_mono {α : Type} (m : List (String × α)) (k k' : String) (v : α)
    (h : containsKey m k = true) : containsKey (insertKey m k' v) k = true := by
  by_cases hk : k' = k
  · subst hk; exact contains_insert_self m k' v
  · simpa [containsKey, lookup_insert_ne m k' k v hk] using h

theorem insertVarLine_contains (m : VarMap) (s k : String)
    (h : containsKey m k = true) : containsKey (insertVarLine m s) k = true := by
  unfold insertVarLine
  cases hs : splitOnceStr s ':' with
  | none => exact h
  | some p => exact contains_insert_mono m k (strTrim p.1) (strTrim p.2) h

theorem applyLines_contains (k : String) : ∀ (ls : List (Option String)) (m m2 : VarMap),
    applyLines ls m = some m2 → containsKey m k = true → containsKey m2 k = true := by
  intro ls
  induction ls with
  | nil =>
    intro m m2 h hc
    simp only [applyLines, Option.some.injEq] at h
    exact h ▸ hc
  | cons o rest ih =>
    intro m m2 h hc
    cases o with
    | none => simp [applyLines] at h
    | some s =>
      exact ih (insertVarLine m s) m2 h (insertVarLine_contains m s k hc)

/-! ### split_once lemmas -/

theorem splitOnceChars_append (sep : Char) (v : List Char) :
    ∀ (k : List Char), sep ∉ k →
      splitOnceChars (k ++ sep :: v) sep = some (k, v) := by
  intro k
  induction k with
  | nil => intro _; simp [splitOnceChars]
  | cons c cs ih =>
    intro h
    have hc : ¬ c = sep := fun he => h (he ▸ List.mem_cons_self c cs)
    have hcs : sep ∉ cs := fun hm => h (List.mem_cons_of_mem c hm)
    simp [splitOnceChars, hc, ih hcs]

theorem splitOnceChars_none (sep : Char) :
    ∀ (l : List Char), sep ∉ l → splitOnceChars l sep = none := by
  intro l
  induction l with
  | nil => intro _; rfl
  | cons c cs ih =>
    intro h
    have hc : ¬ c = sep := fun he => h (he ▸ List.mem_cons_self c cs)
    have hcs : sep ∉ cs := fun hm => h (List.mem_cons_of_mem c hm)
    simp [splitOnceChars, hc, ih hcs]

theorem toList_append_colon (k v : String) :
    (k ++ ":" ++ v).toList = k.toList ++ ':' :: v.toList := by
  simp [String.toList, String.data_append]

/-! ### Guaranteed keys lemmas -/

/-- The nine built in keys template_vars inserts from path arithmetic. -/
def builtinKeys : List String :=
  ["name", "ext", "name.ext", "pwd", "path", "rpath", "dir", "rdir", "rname"]

theorem builtin_contains (path pwd : String) (m : VarMap)
    (h : builtinVars path pwd = some m) :
    ∀ k ∈ builtinKeys, containsKey m k = true := by
  unfold builtinVars at h
  cases h1 : diff_paths path pwd with
  | none => rw [h1] at h; exact absurd h (by simp)
  | some rpath =>
    rw [h1] at h
    simp only [] at h
    cases h2 : diff_paths (parentOrRoot path) pwd with
    | none => rw [h2] at h; exact absurd h (by simp)
    | some rdir =>
      rw [h2] at h
      simp only [Option.some.injEq] at h
      subst h
      intro k hk
      simp only [builtinKeys, List.mem_cons, List.not_mem_nil, or_false] at hk
      rcases hk with rfl | rfl | rfl | rfl | rfl | rfl | rfl | rfl | rfl <;> rfl

theorem template_vars_contains (world : World) (path pwd : String)
    (vc : Option String) (cm : ConfMap) (m : VarMap)
    (h : template_vars world path pwd vc cm = some m) :
    ∀ k ∈ builtinKeys, containsKey m k = true := by
  unfold template_vars at h
  cases hb : builtinVars path pwd with
  | none => rw [hb] at h; exact absurd h (by simp)
  | some m0 =>
    rw [hb] at h
    simp only [] at h
    have hc0 := builtin_contains path pwd m0 hb
    cases hcv : chooseVarCmd vc cm m0 with
    | none =>
      rw [hcv] at h; simp only [Option.some.injEq] at h; subst h; exact hc0
    | some t =>
      rw [hcv] at h
      simp only [] at h
      cases hr : renderString t m0 with
      | none => rw [hr] at h; exact absurd h (by simp)
      | some cmd =>
        rw [hr] at h
        simp only [] at h
        cases hw : world.streamStdout cmd with
        | none => rw [hw] at h; exact absurd h (by simp)
        | some ls =>
          rw [hw] at h
          simp only [] at h
          intro k hk
          exact applyLines_contains k ls m0 m h (hc0 k hk)

/-! ### Concrete scenario inputs used by witnesses and counterexamples -/

/-- A world where the rendered variables command of the first example
event fails to spawn while that of the second succeeds with no output. -/
def failWorld : World :=
  ⟨fun s => if s = "getvars c2" then some [] else none, fun _ => true⟩

/-- Watch mode arguments with the default empty ignore pattern, the
default path message template, an explicit variables command template
and an explicit trailing command. -/
def watchArgs : Cli :=
  ⟨false, false, false, [""], some ("getvars " ++ braced "name"),
    braced "path", false, ["/w"], ["echo", "hi"]⟩

/-- First example event, whose variables command fails to spawn. -/
def eventOne : DebouncedEvent := ⟨"/w/c1.txt", DebouncedEventKind.any⟩

/-- Second example event, whose variables command spawns fine. -/
def eventTwo : DebouncedEvent := ⟨"/w/c2.txt", DebouncedEventKind.any⟩

/-- A world whose variables command emits an event line and a color
line on stdout. -/
def auxWorld : World :=
  ⟨fun s => if s = "gv" then some [some "event: custom", some "color: blue"] else none,
    fun _ => true⟩

/-- Arguments with one ignore pattern for temporary files. -/
def ignoreArgs : Cli :=
  ⟨false, false, false, ["*.tmp"], none, braced "path", false, [], []⟩

/-- Render only arguments with no ignore patterns. -/
def renderOnlyArgs : Cli :=
  ⟨false, true, false, [], none, braced "path", false, [], ["echo", "hi"]⟩

/-! ### Claim theorems -/

/-- C4: for path /a/b/c.txt with pwd /a the variable resolver produces
dir=/a/b, name=c, ext=txt, name.ext=c.txt, rdir=b, rpath=b/c.txt and
rname=b/c.txt, and rname is the separator joining of rdir and
name.ext. -/
theorem template_vars_roundtrip :
    (template_vars noWorld "/a/b/c.txt" "/a" none []).isSome = true
  ∧ getKeyD ((template_vars noWorld "/a/b/c.txt" "/a" none []).getD []) "dir" = "/a/b"
  ∧ getKeyD ((template_vars noWorld "/a/b/c.txt" "/a" none []).getD []) "name" = "c"
  ∧ getKeyD ((template_vars noWorld "/a/b/c.txt" "/a" none []).getD []) "ext" = "txt"
  ∧ getKeyD ((template_vars noWorld "/a/b/c.txt" "/a" none []).getD []) "name.ext" = "c.txt"
  ∧ getKeyD ((template_vars noWorld "/a/b/c.txt" "/a" none []).getD []) "rdir" = "b"
  ∧ getKeyD ((template_vars noWorld "/a/b/c.txt" "/a" none []).getD []) "rpath" = "b/c.txt"
  ∧ getKeyD ((template_vars noWorld "/a/b/c.txt" "/a" none []).getD []) "rname" = "b/c.txt"
  ∧ ("b/c.txt" : String) = "b" ++ sepString ++ "c.txt" :=
  ⟨rfl, rfl, rfl, rfl, rfl, rfl, rfl, rfl, rfl⟩

/-- C2 counterexample: with an explicit command on the command line
but no explicit variables command, a configuration load or parse
failure is still fatal, ending main before the event loop; this
refutes the claim that an explicit command alone makes such a failure
non fatal. -/
theorem config_error_fatal_with_command :
    startupConfMap ["echo"] none (Except.error "bad config") = none := rfl

/-- C2 amended: a configuration load or parse failure is non fatal,
yielding the empty rule table that bypasses lookup, exactly when both
an explicit command and an explicit variables command were supplied;
otherwise it ends the process before the event loop. -/
theorem config_bypass_iff :
    ∀ (cmd : List String) (vc : Option String) (e : String),
      (startupConfMap cmd vc (Except.error e) = some [] ↔
        0 < cmd.length ∧ vc.isSome = true)
    ∧ (startupConfMap cmd vc (Except.error e) = none ↔
        ¬ (0 < cmd.length ∧ vc.isSome = true)) := by
  intro cmd vc e
  by_cases h : 0 < cmd.length ∧ vc.isSome = true <;>
    simp [startupConfMap, h]

/-- C3: two notifications for the same path within the quiet window of
each other produce exactly one logical change event, and in general a
notification is accepted, recording its time, exactly when the path
has no recorded timestamp or the time since the last accepted
timestamp reaches the quiet window, and is dropped with the state
unchanged otherwise. -/
theorem debounce_two_events_once (window t1 t2 : Nat) (p : String)
    (st : DebounceState) (h0 : lookupKey st p = none) (hw : t2 - t1 < window) :
    (debounceRun window st [(p, t1), (p, t2)]).length = 1
  ∧ (∀ (st2 : DebounceState) (q : String) (now : Nat),
      ((accept window st2 q now).1 = true ↔
        (lookupKey st2 q = none ∨
          ∃ last, lookupKey st2 q = some last ∧ window ≤ now - last))
    ∧ ((accept window st2 q now).1 = true →
        lookupKey (accept window st2 q now).2 q = some now)
    ∧ ((accept window st2 q now).1 = false →
        (accept window st2 q now).2 = st2)) := by
  constructor
  · have hnot : ¬ window ≤ t2 - t1 := Nat.not_le.mpr hw
    simp [debounceRun, accept, h0, lookup_insert_self, hnot]
  · intro st2 q now
    refine ⟨?_, ?_, ?_⟩
    · unfold accept
      cases hq : lookupKey st2 q with
      | none => simp
      | some last =>
        by_cases hle : window ≤ now - last <;> simp [hle]
    · unfold accept
      cases hq : lookupKey st2 q with
      | none => intro _; exact lookup_insert_self st2 q now
      | some last =>
        by_cases hle : window ≤ now - last <;> simp [hle]
        exact lookup_insert_self st2 q now
    · unfold accept
      cases hq : lookupKey st2 q with
      | none => simp
      | some last =>
        by_cases hle : window ≤ now - last <;> simp [hle]

/-- Witness for C3 at a concrete input: two notifications for path a
at times zero and one with quiet window five yield a single event. -/
theorem debounce_two_events_once_inst :
    (debounceRun 5 [] [("a", 0), ("a", 1)]).length = 1 :=
  (debounce_two_events_once 5 0 1 "a" [] rfl (by decide)).1

theorem mk_toList (s : String) : String.mk s.toList = s := rfl

/-- C5: the rendered command is the command line override rendered
against the map when one exists, else the command template of the rule
for the ext value of the map when that rule has one, else empty. -/
theorem render_command_selection :
    ∀ (t : Template) (cm : ConfMap) (map : VarMap) (e : String),
      (render_command (some t) cm map = renderNofailString t map)
    ∧ (lookupKey map "ext" = some e →
        render_command none cm map =
          match lookupKey cm e with
          | some (some templ, _) => renderNofailString templ map
          | _ => "") := by
  intro t cm map e
  constructor
  · rfl
  · intro h
    cases hm : lookupKey cm e with
    | none => simp [render_command, getKeyD, h, hm]
    | some pr =>
      cases pr with
      | mk a b =>
        cases a with
        | none => simp [render_command, getKeyD, h, hm]
        | some templ => simp [render_command, getKeyD, h, hm]

/-- Witness for C5: with no override and no rule for the ext value the
command renders empty. -/
theorem render_command_selection_inst :
    render_command none [] [("ext", "txt")] = "" :=
  (render_command_selection "x" [] [("ext", "txt")] "txt").2 rfl

/-- C6: a path matching any configured ignore glob suppresses dispatch
entirely, producing no message and no command; the pattern star dot
tmp suppresses foo.tmp and does not suppress foo.txt. -/
theorem ignore_suppresses_dispatch :
    (∀ (world : World) (args : Cli) (path cmd : String) (cng : Option String),
        args.ignore.any (fun p => globMatches p path) = true →
        on_change world args path cmd cng = ([], true))
  ∧ globMatches "*.tmp" "foo.tmp" = true
  ∧ globMatches "*.tmp" "foo.txt" = false
  ∧ on_change failWorld ignoreArgs "foo.tmp" "echo hi" (some "foo.tmp") = ([], true)
  ∧ on_change failWorld ignoreArgs "foo.txt" "echo hi" (some "foo.txt")
      = ([Effect.changedMsg "foo.txt", Effect.runMsg "echo hi",
          Effect.spawnShell "echo hi" false], true) := by
  refine ⟨?_, by decide, by decide, by decide, by decide⟩
  intro world args path cmd cng h
  simp [on_change, h]

/-- Witness for C6 applying the general suppression at foo.tmp. -/
theorem ignore_suppresses_dispatch_inst :
    on_change failWorld ignoreArgs "foo.tmp" "echo hi" none = ([], true) :=
  ignore_suppresses_dispatch.1 failWorld ignoreArgs "foo.tmp" "echo hi" none (by decide)

/-- C7: a stdout line of the variables command containing a colon is
split at the first colon, both sides are trimmed and the pair is
inserted, overwriting any existing binding of that key; a line without
a colon is ignored; the last write wins. -/
theorem varcmd_line_parsing :
    ∀ (m : VarMap) (k v s v' : String),
      (':' ∉ k.toList → splitOnceStr (k ++ ":" ++ v) ':' = some (k, v))
    ∧ (':' ∉ s.toList → insertVarLine m s = m)
    ∧ (splitOnceStr s ':' = some (k, v) →
        insertVarLine m s = insertKey m (strTrim k) (strTrim v)
      ∧ lookupKey (insertVarLine m s) (strTrim k) = some (strTrim v))
    ∧ lookupKey (insertKey (insertKey m k v') k v) k = some v := by
  intro m k v s v'
  refine ⟨?_, ?_, ?_, ?_⟩
  · intro h
    unfold splitOnceStr
    rw [toList_append_colon, splitOnceChars_append ':' v.toList k.toList h]
    simp [mk_toList]
  · intro h
    have hn : splitOnceStr s ':' = none := by
      unfold splitOnceStr
      rw [splitOnceChars_none ':' s.toList h]
      rfl
    simp [insertVarLine, hn]
  · intro h
    unfold insertVarLine
    rw [h]
    exact ⟨rfl, lookup_insert_self m (strTrim k) (strTrim v)⟩
  · exact lookup_insert_self (insertKey m k v') k v

/-- Witness for C7: a colon line inserts the trimmed pair, overwriting
an existing binding of the key. -/
theorem varcmd_line_parsing_inst :
    lookupKey (insertVarLine [("color", "red")] " color : blue ") "color" = some "blue" :=
  ((varcmd_line_parsing [("color", "red")] " color " " blue " " color : blue " "x").2.2.1
    (by decide)).2

/-- C9: in render only mode on_change never emits a shell dispatch and
always completes, and when the path is not ignored and the command is
nonempty the command is still printed before returning. -/
theorem render_only_never_spawns :
    ∀ (world : World) (args : Cli) (path cmd : String) (cng : Option String),
      args.render_only = true →
      ((on_change world args path cmd cng).1.all (fun e => !e.isSpawn) = true)
    ∧ ((on_change world args path cmd cng).2 = true)
    ∧ (args.ignore.any (fun p => globMatches p path) = false → cmd ≠ "" →
        Effect.runMsg cmd ∈ (on_change world args path cmd cng).1) := by
  intro world args path cmd cng hro
  by_cases hig : args.ignore.any (fun p => globMatches p path) = true
  · refine ⟨?_, ?_, ?_⟩ <;> simp [on_change, hig]
  · have hig' : args.ignore.any (fun p => globMatches p path) = false := by
      revert hig; cases args.ignore.any (fun p => globMatches p path) <;> simp
    by_cases hc : cmd = "" <;> cases cng <;>
      simp [on_change, hig', hro, hc, Effect.isSpawn]

/-- Witness for C9: render only with a nonempty command prints the run
message and emits no dispatch. -/
theorem render_only_never_spawns_inst :
    ((on_change failWorld renderOnlyArgs "a.txt" "echo hi" (some "a.txt")).1.all
        (fun e => !e.isSpawn) = true)
  ∧ Effect.runMsg "echo hi" ∈ (on_change failWorld renderOnlyArgs "a.txt" "echo hi" (some "a.txt")).1 := by
  have h := render_only_never_spawns failWorld renderOnlyArgs "a.txt" "echo hi" (some "a.txt") rfl
  exact ⟨h.1, h.2.2 rfl (by decide)⟩

/-- C1 counterexample: when the variables command of the first event
fails to spawn, the main loop delivers no effects at all and does not
complete, so the second event, which on its own renders, prints and
dispatches fine, is never processed; this refutes the claim that such
a failure is reported, drops only that event and lets the loop
continue. -/
theorem spawn_failure_not_contained :
    mainLoop failWorld watchArgs [] "/w" [Except.ok [eventOne], Except.ok [eventTwo]]
      = ([], false)
  ∧ mainLoop failWorld watchArgs [] "/w" [Except.ok [eventTwo]]
      = ([Effect.changedMsg "/w/c2.txt", Effect.runMsg "echo hi",
          Effect.spawnShell "echo hi" false], true) := by
  constructor
  · rfl
  · rfl

/-- C1 amended: a spawn or read failure of the variables command is a
panic that terminates the main loop: the failing event produces no
effects and nothing after it in that batch or in later batches is
processed; only error batches from the notification source are
reported while the loop continues. -/
theorem spawn_failure_panics_loop :
    ∀ (world : World) (args : Cli) (cm : ConfMap) (cwd : String),
      (∀ (e : DebouncedEvent) (es : List DebouncedEvent) (rest : List RxItem),
        e.kind = DebouncedEventKind.any →
        template_vars world e.path cwd args.variables_command cm = none →
        mainLoop world args cm cwd (Except.ok (e :: es) :: rest) = ([], false))
    ∧ (∀ (errs : List String) (rest : List RxItem),
        mainLoop world args cm cwd (Except.error errs :: rest)
          = (errs.map Effect.errorMsg ++ (mainLoop world args cm cwd rest).1,
              (mainLoop world args cm cwd rest).2)) := by
  intro world args cm cwd
  constructor
  · intro e es rest hk htv
    have hpe : processEvent world args cm cwd e = ([], false) := by
      unfold processEvent
      rw [hk]
      simp [watchEventMap, htv]
    simp [mainLoop, processBatch, hpe]
  · intro errs rest
    cases hml : mainLoop world args cm cwd rest with
    | mk effs ok => simp [mainLoop, hml]

/-- Witness for the amended C1 at the concrete failing event. -/
theorem spawn_failure_panics_loop_inst :
    mainLoop failWorld watchArgs [] "/w" [Except.ok [eventOne]] = ([], false) :=
  (spawn_failure_panics_loop failWorld watchArgs [] "/w").1 eventOne [] [] rfl (by decide)

/-- C8 counterexample: the variable map built for a watch list entry
in trial run mode carries no event key, refuting the claim that every
map handed to the renderer contains an event diagnostic key. -/
theorem trial_map_lacks_event_key :
    (trialMap noWorld "/a" none [] "/a/b/c.txt").map (fun m => containsKey m "event")
      = some false := by
  decide

/-- C8 amended: a watch mode variable map contains the nine built in
keys and the event diagnostic key; a trial run variable map contains
the nine built in keys, the event key being absent there unless the
auxiliary command emits one. -/
theorem maps_guaranteed_keys :
    ∀ (world : World) (cwd : String) (vc : Option String) (cm : ConfMap)
      (e : DebouncedEvent) (p : String) (m m' : VarMap),
      (watchEventMap world e cwd vc cm = some m →
        (∀ k ∈ builtinKeys, containsKey m k = true) ∧ containsKey m "event" = true)
    ∧ (trialMap world cwd vc cm p = some m' →
        ∀ k ∈ builtinKeys, containsKey m' k = true) := by
  intro world cwd vc cm e p m m'
  constructor
  · intro h
    unfold watchEventMap at h
    cases htv : template_vars world e.path cwd vc cm with
    | none => rw [htv] at h; exact absurd h (by simp)
    | some m0 =>
      rw [htv] at h
      simp only [Option.map_some', Option.some.injEq] at h
      subst h
      have hc := template_vars_contains world e.path cwd vc cm m0 htv
      refine ⟨?_, contains_insert_self m0 "event" (eventDebug e)⟩
      intro k hk
      exact contains_insert_mono m0 k "event" (eventDebug e) (hc k hk)
  · intro h
    exact template_vars_contains world (absolutize cwd p) cwd vc cm m' h

/-- Witness for the amended C8 at a concrete watch event. -/
theorem maps_guaranteed_keys_inst :
    containsKey ((watchEventMap noWorld eventOne "/w" none []).getD []) "event" = true
  ∧ containsKey ((watchEventMap noWorld eventOne "/w" none []).getD []) "rname" = true := by
  have h := (maps_guaranteed_keys noWorld "/w" none [] eventOne "x"
    ((watchEventMap noWorld eventOne "/w" none []).getD []) []).1 (by rfl)
  exact ⟨h.2, h.1 "rname" (by decide)⟩

/-- C10: in watch mode the event key is inserted after the variables
command has run, so the built in event description is what the
renderer sees under that key even when the auxiliary command emitted
its own event line. -/
theorem event_key_overwrites_aux :
    ∀ (world : World) (cwd : String) (vc : Option String) (cm : ConfMap)
      (e : DebouncedEvent) (m : VarMap),
      watchEventMap world e cwd vc cm = some m →
      lookupKey m "event" = some (eventDebug e) := by
  intro world cwd vc cm e m h
  unfold watchEventMap at h
  cases htv : template_vars world e.path cwd vc cm with
  | none => rw [htv] at h; exact absurd h (by simp)
  | some m0 =>
    rw [htv] at h
    simp only [Option.map_some', Option.some.injEq] at h
    subst h
    exact lookup_insert_self m0 "event" (eventDebug e)

/-- Witness for C10: a variables command emitting an event line of its
own is still overridden by the built in event description. -/
theorem event_key_overwrites_aux_inst :
    lookupKey ((watchEventMap auxWorld eventTwo "/w" (some "gv") []).getD []) "event"
      = some (eventDebug eventTwo) :=
  event_key_overwrites_aux auxWorld "/w" (some "gv") [] eventTwo
    ((watchEventMap auxWorld eventTwo "/w" (some "gv") []).getD []) (by rfl)

end OnChange
